import Mathlib

/-!
# Verification of the document-generation pipeline

A shallow embedding, in Lean 4, of the core of the `vm-ia-AO-flask`
repository: the text utilities and content parser of
`app/document_processor.py`, the prompt builders and streaming model
client of `app/ollama_client.py`, and the document / generation services
of `app/services.py`.

Modelling conventions:

* Python strings are modelled as `List Char` (`Str`), and file contents
  as `List Nat` (`Bytes`).
* The SHA-256 content digest is modelled as an ideal (collision-free)
  digest, i.e. the identity on the file bytes: the code treats digest
  collisions as cryptographically negligible, and every deduplication
  property below is relative to that idealisation.
* File-system paths produced by `uuid.uuid4()` (and the timestamped
  output paths) are modelled as abstract tokens drawn from a counter
  (`pathCtr`), with freshness recorded as an invariant; nothing in the
  verified claims inspects the textual form of a path.
* External collaborators (the PDF/Word text extractors, the `re` regex
  searches for reference/deadline/budget, the Word renderer, the HTTP
  transport to the model backend, and the wall clock) are parameters of
  an `Env` record.  Everything downstream of them is embedded exactly.
* Python exceptions are modelled with `Except`/`Option`; generator
  functions are modelled as functions returning the list of their
  yields.
-/

abbrev Str := List Char

abbrev Bytes := List Nat

/-- Python's whitespace class for `str.strip()` and the regex `\s`
(ASCII part: space, tab, newline, carriage return, vertical tab,
form feed). -/
def isWS (c : Char) : Bool :=
  c == ' ' || c == '\t' || c == '\n' || c == '\r' || c == '\x0b' || c == '\x0c'

/-- Remove leading whitespace (left half of Python `str.strip()`). -/
def stripLeft : Str → Str
  | [] => []
  | c :: cs => if isWS c then stripLeft cs else c :: cs

/-- Remove trailing whitespace (right half of Python `str.strip()`). -/
def stripRight (s : Str) : Str :=
  (stripLeft s.reverse).reverse

/-- Python `str.strip()`: remove leading and trailing whitespace. -/
def strip (s : Str) : Str :=
  stripRight (stripLeft s)

/-- Python `str.split('\n')`: split on every newline, keeping empty
pieces (`"a\nb\n".split('\n') == ["a","b",""]`). -/
def splitLines : Str → List Str
  | [] => [[]]
  | c :: cs =>
    if c = '\n' then [] :: splitLines cs
    else
      match splitLines cs with
      | [] => [[c]]
      | l :: ls => (c :: l) :: ls

/-- Python `sep.join(parts)`. -/
def joinSep (sep : Str) : List Str → Str
  | [] => []
  | [x] => x
  | x :: xs => x ++ sep ++ joinSep sep xs

/-- Python's substring test `needle in hay`. -/
def containsSub (m : Str) : Str → Bool
  | [] => m.isEmpty
  | c :: rest => m.isPrefixOf (c :: rest) || containsSub m rest

/-! ## The content parser (`document_processor.parse_generated_content`) -/

/-- One structural block of parsed generated content (the dicts built by
`parse_generated_content` / consumed by `create_word_document`). -/
inductive Block where
  | heading (level : Nat) (text : Str)
  | paragraph (text : Str)
  | list (items : List Str)
  | table (rows : List (List Str))
deriving DecidableEq, Repr

/-- The regex test `re.match(r'^\d+\.\s', line)` together with the
substitution `re.sub(r'^\d+\.\s', '', line)`: one or more digits, a dot
and one whitespace character at the start of the line; returns the line
with that prefix removed when it matches.  (`\d` is modelled on ASCII
digits.) -/
def matchOrdinal (line : Str) : Option Str :=
  let digits := line.takeWhile Char.isDigit
  let rest := line.dropWhile Char.isDigit
  if digits.isEmpty then none
  else
    match rest with
    | '.' :: c :: r => if isWS c then some r else none
    | _ => none

/-- Emit the pending bullet-list accumulator, if non-empty
(the repeated `if current_list: sections.append(...)` idiom). -/
def flushPending (sections : List Block) (current_list : List Str) : List Block :=
  if current_list.isEmpty then sections else sections ++ [Block.list current_list]

/-- One iteration of the `for line in lines` loop of
`parse_generated_content`: strip the line, then classify it as blank /
heading (`# `, `## `, `### `) / bullet (`- `, `* `) / ordinal
(`<digits>. `) / paragraph, updating the emitted sections and the
pending list accumulator. -/
def parseStep (sections : List Block) (current_list : List Str) (rawLine : Str) :
    List Block × List Str :=
  let line := strip rawLine
  if line.isEmpty then
    (flushPending sections current_list, [])
  else if List.isPrefixOf "# ".data line then
    (flushPending sections current_list ++ [Block.heading 1 (line.drop 2)], [])
  else if List.isPrefixOf "## ".data line then
    (flushPending sections current_list ++ [Block.heading 2 (line.drop 3)], [])
  else if List.isPrefixOf "### ".data line then
    (flushPending sections current_list ++ [Block.heading 3 (line.drop 4)], [])
  else if List.isPrefixOf "- ".data line || List.isPrefixOf "* ".data line then
    (sections, current_list ++ [line.drop 2])
  else
    match matchOrdinal line with
    | some rest => (sections, current_list ++ [rest])
    | none => (flushPending sections current_list ++ [Block.paragraph line], [])

/-- `parse_generated_content`: split on newlines, run the line
state machine, and flush any pending list at end of input. -/
def parseGeneratedContent (content : Str) : List Block :=
  let out := (splitLines content).foldl
    (fun p l => parseStep p.1 p.2 l) (([] : List Block), ([] : List Str))
  flushPending out.1 out.2

example :
    parseGeneratedContent "# Title\n\nBody text\n\n- a\n- b\n".data =
      [Block.heading 1 "Title".data, Block.paragraph "Body text".data,
       Block.list ["a".data, "b".data]] := by decide

example :
    parseGeneratedContent "1. first\n2. second\n".data =
      [Block.list ["first".data, "second".data]] := by decide

/-! ## Flow-document text extraction (`extract_text_from_docx`) -/

/-- The observable content of a parsed Word document: paragraph texts
and, for each table, its rows of cell texts (the `python-docx` object
model as consumed by `extract_text_from_docx`). -/
structure DocxFile where
  paragraphs : List Str
  tables : List (List (List Str))
deriving DecidableEq

/-- Input to `extract_text_from_docx`: either the parsed document, or
the exception message raised while opening/reading it (the `except`
branch). -/
inductive DocxInput where
  | ok (d : DocxFile)
  | failure (msg : Str)
deriving DecidableEq

/-- `extract_text_from_docx`: non-blank paragraphs (kept verbatim), then
for every table row the non-blank cells, each stripped, joined with
`" | "`; rows with no non-blank cell are skipped; all parts joined with
newlines.  Any exception is turned into a synthetic error string.  The
loops are embedded as left folds over the accumulating `text_parts` /
`row_text` lists, exactly as in the source. -/
def extract_text_from_docx : DocxInput → Str
  | .failure e => "Erreur lors de l'extraction du DOCX: ".data ++ e
  | .ok doc =>
    let paraParts := doc.paragraphs.foldl
      (fun acc para => if (strip para).isEmpty then acc else acc ++ [para]) []
    let parts := doc.tables.foldl
      (fun acc tbl => tbl.foldl
        (fun acc row =>
          let row_text := row.foldl
            (fun rt cell => if (strip cell).isEmpty then rt else rt ++ [strip cell]) []
          if row_text.isEmpty then acc else acc ++ [joinSep " | ".data row_text])
        acc)
      paraParts
    joinSep "\n".data parts

/-- The flow-document extraction exactly as the claim words it
(for the refinement comparison): all non-empty paragraph texts one per
line, followed by all table rows with the cells of each row joined by
`" | "`, rows separated by newline, empty rows skipped. -/
def claimFlowExtract (d : DocxFile) : Str :=
  joinSep "\n".data
    (d.paragraphs.filter (fun p => !p.isEmpty)
      ++ (d.tables.flatten.filter (fun row => !row.isEmpty)).map
          (fun row => joinSep " | ".data row))

/-- The non-blank cells of a table row, each stripped (what the inner
`row_text` loop collects). -/
def rowCellsOf (row : List Str) : List Str :=
  (row.filter (fun c => !(strip c).isEmpty)).map strip

/-- The flow-document extraction as the amended claim words it:
non-blank paragraph texts (verbatim, whitespace-only ones skipped) one
per line, followed by one line per table row that has at least one
non-blank cell, holding that row's non-blank cells, each stripped,
joined by `" | "`. -/
def amendedFlowExtract (d : DocxFile) : Str :=
  joinSep "\n".data
    (d.paragraphs.filter (fun p => !(strip p).isEmpty)
      ++ (d.tables.flatten.filter (fun row => !(rowCellsOf row).isEmpty)).map
          (fun row => joinSep " | ".data (rowCellsOf row)))

/-! ## Key information extraction (`extract_key_information`) -/

/-- Python truthiness of an optional string (`None` and `""` are
falsy). -/
def truthyO : Option Str → Bool
  | none => false
  | some s => !s.isEmpty

/-- Python `a or b` on an optional string and a string. -/
def pyOr (a : Option Str) (b : Str) : Str :=
  if truthyO a then a.getD [] else b

/-- Python `a or b` on two optional strings. -/
def pyOrO (a b : Option Str) : Option Str :=
  if truthyO a then a else b

/-- The `info['title']` computation of `extract_key_information`: strip
every line, drop blank ones, and take the first remaining line truncated
to 200 characters. -/
def keyTitle (text : Str) : Option Str :=
  match (splitLines text).filterMap
      (fun l => let s := strip l; if s.isEmpty then none else some s) with
  | [] => none
  | l :: _ => some (l.take 200)

/-- Result of `extract_key_information` (the `requirements` and
`criteria` entries are always left empty by the source and are
omitted). -/
structure KeyInfo where
  reference : Option Str
  title : Option Str
  deadline : Option Str
  budget : Option Str
deriving DecidableEq

/-- `extract_key_information`: the three case-insensitive regex
searches (reference / deadline / budget patterns, run by the external
`re` engine) are taken as collaborator functions; the title is computed
exactly as in the source. -/
def extract_key_information
    (refSearch deadlineSearch budgetSearch : Str → Option Str)
    (text : Str) : KeyInfo :=
  { reference := refSearch text
    deadline := deadlineSearch text
    budget := budgetSearch text
    title := keyTitle text }

/-- The "first non-blank line" of a text, verbatim (the claim's reading
for C10, used for the refinement comparison): the first line whose
stripped form is non-empty, returned unstripped. -/
def firstNonBlankRawLine (text : Str) : Option Str :=
  (splitLines text).find? (fun l => !(strip l).isEmpty)

/-! ## Prompt construction (`ollama_client.create_*_prompt`) -/

/-- The fixed system instructions of `create_quote_generation_prompt`. -/
def quoteGenSystemPrompt : Str :=
  "Tu es un expert en rédaction d'offres commerciales et de réponses aux appels d'offres.\nTa tâche est de générer une offre de prix professionnelle et complète en français.\n\nRègles à suivre:\n1. Analyser attentivement l'appel d'offre pour identifier les exigences, critères et données clés\n2. Utiliser la structure et le style des modèles de rédaction fournis\n3. Adapter le contenu aux spécificités de l'appel d'offre\n4. Inclure toutes les sections nécessaires (présentation, méthodologie, planning, budget, etc.)\n5. Utiliser un ton professionnel et convaincant\n6. Structurer clairement avec des titres et sous-titres (utiliser le format Markdown)\n\nFormat de sortie:\n- Utiliser des titres avec # pour les sections principales\n- Utiliser des listes à puces pour les énumérations\n- Être précis et concis tout en étant complet\n".data

/-- The numbered `=== Modèle i ===` blocks accumulated by the
`for i, template in enumerate(templates_content, 1)` loop. -/
def templatesLoop : Nat → List Str → Str
  | _, [] => []
  | i, t :: ts =>
    "=== Modèle ".data ++ Nat.toDigits 10 i ++ " ===\n".data ++ t ++ "\n\n".data
      ++ templatesLoop (i + 1) ts

/-- `templates_text`: empty when there are no templates, otherwise the
`MODÈLES DE RÉDACTION DE RÉFÉRENCE` header followed by the numbered
template blocks. -/
def templatesSectionOf (templates_content : List Str) : Str :=
  if templates_content.isEmpty then []
  else "\n\n---\nMODÈLES DE RÉDACTION DE RÉFÉRENCE:\n\n".data
    ++ templatesLoop 1 templates_content

/-- The conditional `CONTEXTE SUPPLÉMENTAIRE` fragment of the user
prompt f-string (empty when the additional context is falsy). -/
def ctxSectionOf (additional_context : Str) : Str :=
  if additional_context.isEmpty then []
  else "CONTEXTE SUPPLÉMENTAIRE: ".data ++ additional_context

/-- The fixed header of the generation user prompt. -/
def quoteGenHeader : Str := "APPEL D'OFFRE À ANALYSER:\n\n".data

/-- The fixed closing of the generation user prompt. -/
def quoteGenClosing : Str :=
  "\n\nGénère maintenant une offre de prix complète et professionnelle en réponse à cet appel d'offre.\nL'offre doit être structurée, détaillée et adaptée aux exigences spécifiques mentionnées.".data

/-- `create_quote_generation_prompt`, returning
`(system_prompt, user_prompt)`. -/
def create_quote_generation_prompt
    (tender_content : Str) (templates_content : List Str)
    (additional_context : Str) : Str × Str :=
  (quoteGenSystemPrompt,
    quoteGenHeader ++ tender_content ++ "\n\n".data
      ++ templatesSectionOf templates_content ++ "\n\n".data
      ++ ctxSectionOf additional_context ++ quoteGenClosing)

/-- `create_analysis_prompt`, returning `(system_prompt, user_prompt)`. -/
def create_analysis_prompt (tender_content : Str) : Str × Str :=
  ("Tu es un expert en analyse d'appels d'offres.\nAnalyse le document fourni et extrais les informations clés de manière structurée.".data,
    "Analyse l'appel d'offre suivant et extrais:\n1. Référence du marché\n2. Objet/Titre\n3. Date limite de réponse\n4. Budget estimé (si mentionné)\n5. Critères de sélection principaux\n6. Exigences techniques clés\n7. Documents à fournir\n8. Points d'attention particuliers\n\nDOCUMENT:\n\n".data
      ++ tender_content
      ++ "\n\nFournis une analyse structurée et concise.".data)

/-! ## The model backend client (`ollama_client.OllamaClient`) -/

/-- The outcome of the blocking HTTP request issued by
`OllamaClient.generate`: a request timeout, a connection failure, or a
response with a status code, an optional parsed `response` field and a
body text. -/
inductive HttpOutcome where
  | timeout
  | connError
  | response (status : Nat) (respField : Option Str) (body : Str)
deriving DecidableEq

/-- Whether the backend outcome is a failure (timeout, connection
failure, or non-200 status). -/
def HttpOutcome.isFailure : HttpOutcome → Bool
  | .timeout => true
  | .connError => true
  | .response status _ _ => status != 200

/-- `OllamaClient.generate`: returns the `response` field of a 200
answer (defaulting to `""`), and raises — modelled as `Except.error`
carrying the exception message — on timeout, connection failure, or a
non-success status. -/
def ollama_generate (base_url : Str) (outcome : HttpOutcome) : Except Str Str :=
  match outcome with
  | .timeout => .error "Timeout: La génération a pris trop de temps".data
  | .connError => .error ("Impossible de se connecter à Ollama sur ".data ++ base_url)
  | .response status respField body =>
    if status == 200 then .ok (respField.getD [])
    else .error ("Erreur Ollama: ".data ++ Nat.toDigits 10 status ++ " - ".data ++ body)

/-- One line delivered by `response.iter_lines()` in
`OllamaClient.generate_stream`: an empty keep-alive line (skipped by
`if line:`), a line whose `json.loads` raises, or a decoded payload with
its optional `response` fragment and `done` flag. -/
inductive LineItem where
  | empty
  | badLine (msg : Str)
  | payload (response : Option Str) (done : Bool)
deriving DecidableEq

/-- The behaviour of the streaming backend call as observed by
`generate_stream`: an optional failure when opening the connection, the
delivered lines, and an optional failure raised by the line iterator
after those lines. -/
structure BackendBehavior where
  connectFailure : Option Str
  lines : List LineItem
  tailFailure : Option Str
deriving DecidableEq

/-- The synthetic in-band error chunk yielded by the `except` branch of
`generate_stream`. -/
def errChunk (e : Str) : Str :=
  "\nErreur lors de la génération: ".data ++ e

/-- The `for line in response.iter_lines()` loop of `generate_stream`:
skip empty lines, yield each decoded `response` fragment, stop on
`done`; any exception (decode failure or iterator failure) is caught and
turned into one final `errChunk`. -/
def streamLoop : List LineItem → Option Str → List Str
  | [], none => []
  | [], some e => [errChunk e]
  | .empty :: rest, t => streamLoop rest t
  | .badLine m :: _, _ => [errChunk m]
  | .payload r d :: rest, t =>
    let ys := match r with | some s => [s] | none => []
    if d then ys else ys ++ streamLoop rest t

/-- `OllamaClient.generate_stream`, as the list of chunks the generator
yields.  The Python generator never raises to its consumer: every
failure path ends in the in-band `errChunk`, which is why this embedding
is a total function into `List Str`. -/
def generate_stream (b : BackendBehavior) : List Str :=
  match b.connectFailure with
  | some e => [errChunk e]
  | none => streamLoop b.lines b.tailFailure

/-- Whether the streamed interaction terminates without any failure:
the lines end (with no iterator failure) or a payload signals `done`
before any failure is reached. -/
def stopsCleanly : List LineItem → Option Str → Bool
  | [], none => true
  | [], some _ => false
  | .empty :: rest, t => stopsCleanly rest t
  | .badLine _ :: _, _ => false
  | .payload _ d :: rest, t => d || stopsCleanly rest t

/-- Whether the streaming call fails at some reached point (connection
failure, decode failure, or iterator failure before completion). -/
def hasFailure (b : BackendBehavior) : Bool :=
  b.connectFailure.isSome || !(stopsCleanly b.lines b.tailFailure)

/-- All `response` fragments carried by the delivered payload lines
(the legitimate data chunks available to the stream). -/
def payloadTexts (lines : List LineItem) : List Str :=
  lines.filterMap fun
    | .payload (some s) _ => some s
    | _ => none

/-! ## Data model (`database.py`) -/

/-- `DocumentType`. -/
inductive DocumentType where
  | APPEL_OFFRE
  | OFFRE_PRIX
  | GENERATED
deriving DecidableEq

/-- `DocumentStatus`. -/
inductive DocumentStatus where
  | UPLOADED
  | PROCESSING
  | COMPLETED
  | ERROR
deriving DecidableEq

/-- A `Document` row.  `file_path` is an abstract path token (see the
module header); `file_hash` is the ideal digest, i.e. the file bytes
themselves; the `created_at`/`updated_at` bookkeeping timestamps are
omitted (no claim mentions them). -/
structure Doc where
  id : Nat
  filename : Str
  original_filename : Str
  file_path : Nat
  file_type : Str
  document_type : DocumentType
  reference : Str
  title : Str
  description : Option Str
  extracted_text : Str
  file_hash : Bytes
  status : DocumentStatus
  parent_id : Option Nat
  is_template : Bool
deriving DecidableEq

/-- A `GenerationHistory` row (`templates_used` holds the id list that
the source serialises with `json.dumps`; `created_at` is omitted). -/
structure GenerationHistory where
  id : Nat
  source_document_id : Nat
  generated_document_id : Nat
  templates_used : List Nat
  prompt_used : Str
  model_used : Str
  generation_time : Nat
deriving DecidableEq

/-- The relational store: documents and history rows in insertion
order, plus the primary-key counters. -/
structure DB where
  documents : List Doc
  history : List GenerationHistory
  nextDocId : Nat
  nextHistId : Nat
deriving DecidableEq

/-- The file store: abstract path tokens mapped to file bytes. -/
abbrev FS := List (Nat × Bytes)

/-- `open(path,'wb').write(content)`: replace any file at `p`, then add
the new one. -/
def fsWrite (fs : FS) (p : Nat) (b : Bytes) : FS :=
  fs.filter (fun f => f.1 != p) ++ [(p, b)]

/-- `os.remove(path)`. -/
def fsRemove (fs : FS) (p : Nat) : FS :=
  fs.filter (fun f => f.1 != p)

/-- How many stored files hold exactly the bytes `b`. -/
def countContent (fs : FS) (b : Bytes) : Nat :=
  (fs.filter (fun f => f.2 == b)).length

/-- The whole mutable world of the services: file store, database, and
the fresh-path counter standing in for `uuid.uuid4()` / timestamped
output names. -/
structure SysState where
  fs : FS
  db : DB
  pathCtr : Nat
deriving DecidableEq

/-- The external collaborators of the pipeline (see the module
header). -/
structure Env where
  /-- `extract_text`: text extraction from the uploaded bytes by the
  external PDF/Word parsers. -/
  extractor : Bytes → Str
  /-- the `re.search` for the `reference` pattern (match stripped). -/
  refSearch : Str → Option Str
  /-- the `re.search` for the `deadline` pattern (match stripped). -/
  deadlineSearch : Str → Option Str
  /-- the `re.search` for the `budget` pattern (match stripped). -/
  budgetSearch : Str → Option Str
  /-- `create_word_document`: renders (content, title, reference) to the
  bytes of the output `.docx` artifact. -/
  wordWriter : Str → Str → Str → Bytes
  /-- the blocking HTTP call of `OllamaClient.generate`, keyed by
  (user prompt, system prompt). -/
  http : Str → Str → HttpOutcome
  /-- the streaming HTTP call of `OllamaClient.generate_stream`, keyed
  by (user prompt, system prompt). -/
  streamOf : Str → Str → BackendBehavior
  /-- `OLLAMA_BASE_URL` (only appears inside error messages). -/
  base_url : Str
  /-- `OLLAMA_MODEL` (recorded in the history rows). -/
  model : Str
  /-- `datetime.now().strftime(...)`: the timestamp fragment used in
  fallback references and output filenames. -/
  nowStr : Str
  /-- `int(time.time() - start_time)`: the wall-clock duration recorded
  in the history rows. -/
  elapsed : Nat

/-! ## Document service (`services.DocumentService`) -/

/-- `Path(original_filename).suffix.lower()`: the last `.`-suffix of
the final path component, lowercased; empty when there is no dot or
only a leading (hidden-file) dot. -/
def fileSuffix (name : Str) : Str :=
  let base := (name.reverse.takeWhile (fun c => c ≠ '/')).reverse
  let afterDot := base.reverse.takeWhile (fun c => c ≠ '.')
  if afterDot.length + 1 < base.length ∧ afterDot ≠ [] then
    ('.' :: afterDot.reverse).map Char.toLower
  else []

/-- `DocumentService.upload_document`.  Writes the uploaded bytes under
a fresh path, computes the content digest, and either returns the
existing record with the same digest (removing the just-written
duplicate file) or extracts text / key information and inserts a new
`COMPLETED` document row.  The `key_info` lookup mirrors the
`if document_type == DocumentType.APPEL_OFFRE and not reference:`
guard, with `or`-chains for the Python truthiness of the optional
arguments. -/
def upload_document (env : Env) (st : SysState) (file_content : Bytes)
    (original_filename : Str) (document_type : DocumentType)
    (reference title description : Option Str) (is_template : Bool) :
    SysState × Doc :=
  let file_ext := fileSuffix original_filename
  let file_path := st.pathCtr
  let fs1 := fsWrite st.fs file_path file_content
  let file_hash := file_content
  match st.db.documents.find? (fun d => d.file_hash == file_hash) with
  | some existing =>
    ({ st with fs := fsRemove fs1 file_path, pathCtr := st.pathCtr + 1 }, existing)
  | none =>
    let extracted_text := env.extractor file_content
    let key :=
      if document_type = DocumentType.APPEL_OFFRE ∧ ¬truthyO reference then
        some (extract_key_information env.refSearch env.deadlineSearch
          env.budgetSearch extracted_text)
      else none
    let reference := match key with
      | some ki => pyOrO ki.reference reference
      | none => reference
    let title := match key with
      | some ki => pyOrO ki.title title
      | none => title
    let document : Doc :=
      { id := st.db.nextDocId
        filename := Nat.toDigits 10 file_path ++ file_ext
        original_filename := original_filename
        file_path := file_path
        file_type := file_ext.drop 1
        document_type := document_type
        reference := pyOr reference ("DOC-".data ++ env.nowStr)
        title := pyOr title original_filename
        description := description
        extracted_text := extracted_text
        file_hash := file_hash
        status := DocumentStatus.COMPLETED
        parent_id := none
        is_template := is_template }
    ({ st with
        fs := fs1
        pathCtr := st.pathCtr + 1
        db := { st.db with
                documents := st.db.documents ++ [document]
                nextDocId := st.db.nextDocId + 1 } },
      document)

/-- `DocumentService.get_document`. -/
def get_document (st : SysState) (document_id : Nat) : Option Doc :=
  st.db.documents.find? (fun d => d.id == document_id)

/-- `DocumentService.get_all_templates`. -/
def get_all_templates (st : SysState) : List Doc :=
  st.db.documents.filter
    (fun d => d.document_type == DocumentType.OFFRE_PRIX && d.is_template)

/-! ## Quote generation service (`services.QuoteGenerationService`) -/

/-- Failures raised by the generation/analysis entry points: a
`ValueError` for a missing document (carrying the missing id), or the
exception propagated from `OllamaClient.generate`. -/
inductive GenFailure where
  | notFound (id : Nat)
  | backend (msg : Str)
deriving DecidableEq

/-- The `templates_content` gathering shared by `generate_quote` and
`generate_quote_stream`: with a truthy id list, the texts of the listed
documents that exist and have truthy extracted text; otherwise the
texts of all templates (`if template_ids:` is Python truthiness, so
`None` and `[]` both fall back to all templates). -/
def templatesContentOf (st : SysState) (template_ids : Option (List Nat)) : List Str :=
  let tids := template_ids.getD []
  if tids.isEmpty then
    (get_all_templates st).filterMap
      (fun t => if t.extracted_text.isEmpty then none else some t.extracted_text)
  else
    tids.filterMap (fun tid =>
      match get_document st tid with
      | some t => if t.extracted_text.isEmpty then none else some t.extracted_text
      | none => none)

/-- The commit tail shared by `generate_quote` and
`generate_quote_stream` once the full generated text is known: render
the Word artifact into the generated folder, re-upload its bytes as a
`GENERATED` document, set its `parent_id`, and append the
`GenerationHistory` row. -/
def commitGeneration (env : Env) (st : SysState) (tender : Doc)
    (tender_document_id : Nat) (template_ids : Option (List Nat))
    (user_prompt generated_content : Str) (output_filename : Str) :
    SysState × Doc × GenerationHistory :=
  let fileBytes := env.wordWriter generated_content
    ("Offre de Prix - ".data ++ tender.reference) tender.reference
  let outPath := st.pathCtr
  let st := { st with fs := fsWrite st.fs outPath fileBytes, pathCtr := st.pathCtr + 1 }
  let up := upload_document env st fileBytes output_filename DocumentType.GENERATED
    (some ("OFF-".data ++ tender.reference))
    (some ("Offre générée pour ".data ++ tender.reference))
    (some ("Offre automatiquement générée à partir de l'appel d'offre ".data
      ++ tender.reference))
    false
  let st := up.1
  let generated_doc := { up.2 with parent_id := some tender_document_id }
  let setParent := fun (d : Doc) =>
    if d.id == generated_doc.id then { d with parent_id := some tender_document_id }
    else d
  let st := { st with db := { st.db with documents := st.db.documents.map setParent } }
  let history : GenerationHistory :=
    { id := st.db.nextHistId
      source_document_id := tender_document_id
      generated_document_id := generated_doc.id
      templates_used := template_ids.getD []
      prompt_used := user_prompt.take 5000
      model_used := env.model
      generation_time := env.elapsed }
  let st := { st with
    db := { st.db with
            history := st.db.history ++ [history]
            nextHistId := st.db.nextHistId + 1 } }
  (st, generated_doc, history)

/-- `QuoteGenerationService.generate_quote` (blocking).  Raising is
modelled as returning `Except.error` together with the state at the
point of the raise. -/
def generate_quote (env : Env) (st : SysState) (tender_document_id : Nat)
    (template_ids : Option (List Nat)) (additional_context : Str)
    (output_filename : Option Str) : Except GenFailure Doc × SysState :=
  match get_document st tender_document_id with
  | none => (.error (.notFound tender_document_id), st)
  | some tender =>
    let templates_content := templatesContentOf st template_ids
    let prompts := create_quote_generation_prompt tender.extracted_text
      templates_content additional_context
    match ollama_generate env.base_url (env.http prompts.2 prompts.1) with
    | .error e => (.error (.backend e), st)
    | .ok generated_content =>
      let output_filename := match output_filename with
        | some f => f
        | none => "Offre_".data ++ tender.reference ++ "_".data ++ env.nowStr
            ++ ".docx".data
      let fin := commitGeneration env st tender tender_document_id template_ids
        prompts.2 generated_content output_filename
      (.ok fin.2.1, fin.1)

/-- One yield of the `generate_quote_stream` generator:
`(chunk, None, {'status':'generating'})` while streaming, then the
final `("", document, {'status':'completed','time':…})`. -/
inductive YieldItem where
  | generating (chunk : Str)
  | completed (doc : Doc) (time : Nat)
deriving DecidableEq

/-- `QuoteGenerationService.generate_quote_stream`, as the list of its
yields plus the final state.  The stream chunks come from
`generate_stream` (which never raises: failures arrive as in-band error
chunks), after which the commit tail always runs. -/
def generate_quote_stream (env : Env) (st : SysState) (tender_document_id : Nat)
    (template_ids : Option (List Nat)) (additional_context : Str) :
    Except GenFailure (List YieldItem) × SysState :=
  match get_document st tender_document_id with
  | none => (.error (.notFound tender_document_id), st)
  | some tender =>
    let templates_content := templatesContentOf st template_ids
    let prompts := create_quote_generation_prompt tender.extracted_text
      templates_content additional_context
    let chunks := generate_stream (env.streamOf prompts.2 prompts.1)
    let full_content := chunks.foldl (fun acc c => acc ++ c) []
    let output_filename := "Offre_".data ++ tender.reference ++ "_".data
      ++ env.nowStr ++ ".docx".data
    let fin := commitGeneration env st tender tender_document_id template_ids
      prompts.2 full_content output_filename
    (.ok (chunks.map YieldItem.generating
      ++ [YieldItem.completed fin.2.1 env.elapsed]), fin.1)

/-- The analysis result dict of `QuoteGenerationService.analyze_tender`. -/
structure AnalysisResult where
  document_id : Nat
  reference : Str
  analysis : Str
deriving DecidableEq

/-- `QuoteGenerationService.analyze_tender` (blocking; no state
mutation). -/
def analyze_tender (env : Env) (st : SysState) (document_id : Nat) :
    Except GenFailure AnalysisResult :=
  match get_document st document_id with
  | none => .error (.notFound document_id)
  | some document =>
    let prompts := create_analysis_prompt document.extracted_text
    match ollama_generate env.base_url (env.http prompts.2 prompts.1) with
    | .error e => .error (.backend e)
    | .ok analysis =>
      .ok { document_id := document_id, reference := document.reference,
            analysis := analysis }

/-- `QuoteGenerationService.analyze_tender_stream`, as the list of its
yielded chunks. -/
def analyze_tender_stream (env : Env) (st : SysState) (document_id : Nat) :
    Except GenFailure (List Str) :=
  match get_document st document_id with
  | none => .error (.notFound document_id)
  | some document =>
    let prompts := create_analysis_prompt document.extracted_text
    .ok (generate_stream (env.streamOf prompts.2 prompts.1))

/-! ## Store invariant and concrete fixtures -/

/-- Well-formedness of the document store, as maintained by ingestion:
every document row has its backing file (whose content is its digest,
under the ideal-digest model), every stored file backs some row, digests
are unique across rows, and all used path tokens are older than the
fresh-path counter (freshness of `uuid.uuid4()` names). -/
def goodState (st : SysState) : Prop :=
  (∀ d ∈ st.db.documents, (d.file_path, d.file_hash) ∈ st.fs) ∧
  (∀ f ∈ st.fs, ∃ d ∈ st.db.documents, d.file_path = f.1 ∧ d.file_hash = f.2) ∧
  st.db.documents.Pairwise (fun a b => a.file_hash ≠ b.file_hash) ∧
  (∀ f ∈ st.fs, f.1 < st.pathCtr) ∧
  (st.fs.map Prod.fst).Nodup

instance (st : SysState) : Decidable (goodState st) := by
  unfold goodState; infer_instance

/-- A baseline environment for concrete runs: trivial collaborators, a
healthy backend (status 200, fixed response), and a clean stream. -/
def envOk : Env :=
  { extractor := fun _ => "Budget: 10000 EUR".data
    refSearch := fun _ => none
    deadlineSearch := fun _ => none
    budgetSearch := fun _ => none
    wordWriter := fun _ _ _ => [1, 2, 3]
    http := fun _ _ => .response 200 (some "# Offre\nContenu.".data) []
    streamOf := fun _ _ => ⟨none, [.payload (some "# Offre\n".data) false,
      .payload (some "Contenu.\n".data) true], none⟩
    base_url := "http://localhost:11434".data
    model := "mistral-small:latest".data
    nowStr := "20240101_120000".data
    elapsed := 3 }

/-- The baseline environment with a model backend whose streaming call
fails at connection time and whose blocking call times out. -/
def envFail : Env :=
  { envOk with
    http := fun _ _ => .timeout
    streamOf := fun _ _ => ⟨some "connection refused".data, [], none⟩ }

/-- A stored tender document (id 1, backing file at path token 0). -/
def tenderDoc : Doc :=
  { id := 1
    filename := "0.pdf".data
    original_filename := "ao.pdf".data
    file_path := 0
    file_type := "pdf".data
    document_type := DocumentType.APPEL_OFFRE
    reference := "AO-2024-01".data
    title := "Appel".data
    description := none
    extracted_text := "Budget: 10000 EUR".data
    file_hash := [7]
    status := DocumentStatus.COMPLETED
    parent_id := none
    is_template := false }

/-- The empty store. -/
def stEmpty : SysState :=
  { fs := [], db := { documents := [], history := [], nextDocId := 1, nextHistId := 1 },
    pathCtr := 0 }

/-- A store holding exactly the tender document. -/
def stTender : SysState :=
  { fs := [(0, [7])]
    db := { documents := [tenderDoc], history := [], nextDocId := 2, nextHistId := 1 }
    pathCtr := 1 }

/-- "Does not end in whitespace": every character found at the end is a
non-whitespace character (vacuous for the empty string). -/
def noTrailWS (t : Str) : Prop :=
  ∀ c, t.getLast? = some c → isWS c = false

/-- Cleanliness of the text carried by an emitted block: heading and
paragraph blocks hold text with no trailing whitespace (no constraint
on list or table blocks). -/
def blockTextClean (b : Block) : Prop :=
  (∀ lvl t, b = Block.heading lvl t → noTrailWS t) ∧
  (∀ t, b = Block.paragraph t → noTrailWS t)

/-- The baseline environment with a text extractor returning a tender
text whose first non-blank line is whitespace-padded (`" T \nx"`). -/
def envPadTitle : Env :=
  { envOk with extractor := fun _ => " T \nx".data }

/-- A streaming backend behaviour that delivers one payload chunk and
then a line whose JSON decode fails. -/
def midFailStream : BackendBehavior :=
  ⟨none, [.payload (some "Hello".data) false, .badLine "bad json".data], none⟩

/-! ## Helper lemmas -/

theorem stripLeft_head? (s : Str) (c : Char) (h : (stripLeft s).head? = some c) :
    isWS c = false := by
  induction s with
  | nil => simp [stripLeft] at h
  | cons a as ih =>
    rw [stripLeft] at h
    by_cases hw : isWS a
    · rw [if_pos hw] at h; exact ih h
    · rw [if_neg hw] at h
      simp only [List.head?_cons, Option.some.injEq] at h
      subst h; exact Bool.eq_false_iff.mpr hw

theorem stripLeft_of_head (s : Str) (c : Char) (h : s.head? = some c)
    (hc : isWS c = false) : stripLeft s = s := by
  cases s with
  | nil => simp at h
  | cons a as =>
    simp only [List.head?_cons, Option.some.injEq] at h
    subst h
    rw [stripLeft, if_neg (by simp [hc])]

theorem stripLeft_idem (s : Str) : stripLeft (stripLeft s) = stripLeft s := by
  cases h : stripLeft s with
  | nil => rfl
  | cons c t =>
    exact stripLeft_of_head _ c rfl
      (stripLeft_head? s c (by rw [h]; rfl))

theorem stripLeft_append_ws (pre l : Str) (h : ∀ c ∈ pre, isWS c = true) :
    stripLeft (pre ++ l) = stripLeft l := by
  induction pre with
  | nil => rfl
  | cons a as ih =>
    rw [List.cons_append, stripLeft, if_pos (h a (by simp))]
    exact ih fun c hc => h c (by simp [hc])

theorem stripLeft_eq_nil_of_ws (l : Str) (h : ∀ c ∈ l, isWS c = true) :
    stripLeft l = [] := by
  have := stripLeft_append_ws l [] h
  simpa using this

theorem stripLeft_suffix (s : Str) : ∃ pre, s = pre ++ stripLeft s := by
  induction s with
  | nil => exact ⟨[], rfl⟩
  | cons a as ih =>
    rw [stripLeft]
    by_cases hw : isWS a
    · obtain ⟨pre, hpre⟩ := ih
      exact ⟨a :: pre, by rw [if_pos hw, List.cons_append, ← hpre]⟩
    · exact ⟨[], by rw [if_neg hw]; rfl⟩

theorem stripRight_prefix (s : Str) : ∃ r, s = stripRight s ++ r := by
  obtain ⟨pre, hpre⟩ := stripLeft_suffix s.reverse
  refine ⟨pre.reverse, ?_⟩
  have := congrArg List.reverse hpre
  rwa [List.reverse_reverse, List.reverse_append] at this

theorem stripRight_idem (s : Str) : stripRight (stripRight s) = stripRight s := by
  unfold stripRight
  rw [List.reverse_reverse, stripLeft_idem]

theorem strip_idem (s : Str) : strip (strip s) = strip s := by
  unfold strip
  have h1 : stripLeft (stripRight (stripLeft s)) = stripRight (stripLeft s) := by
    cases h : stripRight (stripLeft s) with
    | nil => rfl
    | cons c t =>
      obtain ⟨r, hr⟩ := stripRight_prefix (stripLeft s)
      rw [h] at hr
      have hc : (stripLeft s).head? = some c := by rw [hr]; rfl
      exact stripLeft_of_head _ c rfl (stripLeft_head? s c hc)
  rw [h1, stripRight_idem]

theorem strip_getLast? (s : Str) (c : Char) (h : (strip s).getLast? = some c) :
    isWS c = false := by
  unfold strip stripRight at h
  rw [List.getLast?_reverse] at h
  exact stripLeft_head? _ c h

theorem strip_append_ws (pre l : Str) (h : ∀ c ∈ pre, isWS c = true) :
    strip (pre ++ l) = strip l := by
  unfold strip
  rw [stripLeft_append_ws pre l h]

theorem strip_eq_nil_of_ws (l : Str) (h : ∀ c ∈ l, isWS c = true) :
    strip l = [] := by
  unfold strip
  rw [stripLeft_eq_nil_of_ws l h]; rfl

theorem getLast?_drop_imp {α : Type} :
    ∀ (n : Nat) (l : List α) (c : α), (l.drop n).getLast? = some c →
      l.getLast? = some c := by
  intro n
  induction n with
  | zero => intro l c h; simpa using h
  | succ m ih =>
    intro l c h
    cases l with
    | nil => simp at h
    | cons a as =>
      rw [List.drop_succ_cons] at h
      have has := ih as c h
      have hne : as ≠ [] := by
        intro hnil; rw [hnil] at has; simp at has
      cases as with
      | nil => exact absurd rfl hne
      | cons b bs => rw [List.getLast?_cons_cons]; exact has

theorem isPrefixOf_append_cons {c : Char} (m : Str) (hc : c ∉ m) :
    ∀ (d b : Str), m.isPrefixOf (d ++ c :: b) = m.isPrefixOf d := by
  induction m with
  | nil => intro d b; simp [List.isPrefixOf]
  | cons x m' ih =>
    intro d b
    cases d with
    | nil =>
      have hxc : (x == c) = false := by
        simp only [beq_eq_false_iff_ne, ne_eq]
        intro hxeq; exact hc (by simp [hxeq])
      simp [List.isPrefixOf, hxc]
    | cons y d' =>
      show (x == y && m'.isPrefixOf (d' ++ c :: b)) = (x == y && m'.isPrefixOf d')
      rw [ih (fun hm => hc (by simp [hm])) d' b]

theorem containsSub_append_cons {c : Char} (m : Str) (hm : m ≠ []) (hc : c ∉ m) :
    ∀ (a b : Str), containsSub m (a ++ c :: b) = (containsSub m a || containsSub m b) := by
  intro a b
  induction a with
  | nil =>
    have hpre : m.isPrefixOf (c :: b) = false := by
      cases m with
      | nil => exact absurd rfl hm
      | cons x m' =>
        have hxc : (x == c) = false := by
          simp only [beq_eq_false_iff_ne, ne_eq]
          intro hxeq; exact hc (by simp [hxeq])
        simp [List.isPrefixOf, hxc]
    have hnil : containsSub m [] = false := by
      cases m with
      | nil => exact absurd rfl hm
      | cons x m' => rfl
    show (List.isPrefixOf m (c :: b) || containsSub m b)
        = (containsSub m [] || containsSub m b)
    rw [hpre, hnil]
  | cons y a' ih =>
    show (List.isPrefixOf m ((y :: a') ++ c :: b) || containsSub m (a' ++ c :: b))
        = ((List.isPrefixOf m (y :: a') || containsSub m a') || containsSub m b)
    rw [isPrefixOf_append_cons m hc (y :: a') b, ih, Bool.or_assoc]

theorem foldl_skip_append {α β : Type} (p : α → Bool) (g : α → β) :
    ∀ (l : List α) (init : List β),
      l.foldl (fun acc a => if p a then acc else acc ++ [g a]) init
        = init ++ (l.filter (fun a => !p a)).map g := by
  intro l
  induction l with
  | nil => intro init; simp
  | cons a as ih =>
    intro init
    rw [List.foldl_cons]
    by_cases hp : p a
    · rw [if_pos hp]
      rw [ih init, List.filter_cons, if_neg (by simp [hp])]
    · rw [if_neg hp]
      rw [ih (init ++ [g a]), List.filter_cons, if_pos (by simp [hp])]
      simp

theorem foldl_foldl_flatten {α β : Type} (F : β → α → β) :
    ∀ (tables : List (List α)) (init : β),
      tables.foldl (fun acc tbl => tbl.foldl F acc) init
        = tables.flatten.foldl F init := by
  intro tables
  induction tables with
  | nil => intro init; rfl
  | cons t ts ih =>
    intro init
    rw [List.foldl_cons, List.flatten_cons, List.foldl_append, ih]

theorem find?_append_none {α : Type} (p : α → Bool)
    (l₁ l₂ : List α) (h : l₁.find? p = none) :
    (l₁ ++ l₂).find? p = l₂.find? p := by
  rw [List.find?_append, h, Option.none_or]

theorem pairwise_hash_unique {l : List Doc}
    (hp : l.Pairwise (fun a b => a.file_hash ≠ b.file_hash)) :
    ∀ {a b : Doc}, a ∈ l → b ∈ l → a.file_hash = b.file_hash → a = b := by
  induction l with
  | nil => intro a b ha; simp at ha
  | cons x xs ih =>
    rw [List.pairwise_cons] at hp
    intro a b ha hb heq
    rcases List.mem_cons.mp ha with rfl | ha' <;>
      rcases List.mem_cons.mp hb with rfl | hb'
    · rfl
    · exact absurd heq (hp.1 b hb')
    · exact absurd heq.symm (hp.1 a ha')
    · exact ih hp.2 ha' hb' heq

theorem nodup_all_eq_length_one {α : Type} {l : List α} {x : α}
    (hnd : l.Nodup) (hx : x ∈ l) (hall : ∀ y ∈ l, y = x) : l.length = 1 := by
  cases l with
  | nil => simp at hx
  | cons a as =>
    cases as with
    | nil => rfl
    | cons b bs =>
      have ha : a = x := hall a (by simp)
      have hb : b = x := hall b (by simp)
      rw [List.nodup_cons] at hnd
      exact absurd (by rw [ha, hb]; simp : a ∈ b :: bs) hnd.1

/-! ## Claim theorems -/

/-- C3: `parse_generated_content` applied to the exact input
`"# Title\n\nBody text\n\n- a\n- b\n"` yields exactly the three blocks
`Heading(level=1,"Title")`, `Paragraph("Body text")`, `List(["a","b"])`,
in that order and nothing else. -/
theorem C3_parse_round_trip :
    parseGeneratedContent "# Title\n\nBody text\n\n- a\n- b\n".data =
      [Block.heading 1 "Title".data, Block.paragraph "Body text".data,
       Block.list ["a".data, "b".data]] := by decide

theorem paraFold_eq (ps : List Str) :
    ps.foldl (fun acc para => if (strip para).isEmpty then acc else acc ++ [para]) []
      = ps.filter (fun p => !(strip p).isEmpty) := by
  have h := foldl_skip_append (fun para => (strip para).isEmpty)
    (fun para => para) ps []
  simpa using h

theorem cellFold_eq (row : List Str) :
    row.foldl (fun rt cell => if (strip cell).isEmpty then rt else rt ++ [strip cell]) []
      = rowCellsOf row := by
  have h := foldl_skip_append (fun cell => (strip cell).isEmpty) strip row []
  simpa [rowCellsOf] using h

theorem rowFold_eq (rows : List (List Str)) (init : List Str) :
    rows.foldl (fun acc row =>
      let row_text := row.foldl
        (fun rt cell => if (strip cell).isEmpty then rt else rt ++ [strip cell]) []
      if row_text.isEmpty then acc else acc ++ [joinSep " | ".data row_text]) init
    = init ++ (rows.filter (fun row => !(rowCellsOf row).isEmpty)).map
        (fun row => joinSep " | ".data (rowCellsOf row)) := by
  simp only [cellFold_eq]
  exact foldl_skip_append (fun row => (rowCellsOf row).isEmpty)
    (fun row => joinSep " | ".data (rowCellsOf row)) rows init

/-- C7 counterexample: on a document with no paragraphs and a single
table row `["a", "", "b"]`, the code joins only the non-blank cells
(yielding `"a | b"`) while the claim's wording joins all cells of the
row (yielding `"a |  | b"`). -/
theorem C7_counterexample :
    extract_text_from_docx (DocxInput.ok ⟨[], [[["a".data, [], "b".data]]]⟩)
      ≠ claimFlowExtract ⟨[], [[["a".data, [], "b".data]]]⟩ := by decide

/-- C7 (amended): for every flow document, `extract_text_from_docx`
returns the non-blank paragraph texts (verbatim, whitespace-only ones
skipped) one per line, followed by one line per table row with at least
one non-blank cell, carrying that row's non-blank cells, each stripped,
joined by `" | "`; and on failure it returns the synthetic
`"Erreur lors de l'extraction du DOCX: "` error string instead of
raising. -/
theorem C7_flow_extraction :
    (∀ d : DocxFile, extract_text_from_docx (DocxInput.ok d) = amendedFlowExtract d) ∧
    (∀ e : Str, extract_text_from_docx (DocxInput.failure e)
      = "Erreur lors de l'extraction du DOCX: ".data ++ e) := by
  constructor
  · intro d
    show joinSep "\n".data _ = _
    rw [foldl_foldl_flatten, rowFold_eq, paraFold_eq]
    rfl
  · intro e
    rfl

theorem streamLoop_fail (t : Option Str) :
    ∀ lines : List LineItem, stopsCleanly lines t = false →
      ∃ ys e, streamLoop lines t = ys ++ [errChunk e] ∧
        ∀ y ∈ ys, y ∈ payloadTexts lines := by
  intro lines
  induction lines with
  | nil =>
    intro h
    cases t with
    | none => simp [stopsCleanly] at h
    | some e => exact ⟨[], e, rfl, by simp⟩
  | cons li rest ih =>
    intro h
    cases li with
    | empty =>
      obtain ⟨ys, e, h1, h2⟩ := ih (by simpa [stopsCleanly] using h)
      refine ⟨ys, e, h1, fun y hy => ?_⟩
      simpa [payloadTexts] using h2 y hy
    | badLine m => exact ⟨[], m, rfl, by simp⟩
    | payload r d =>
      rw [stopsCleanly] at h
      rw [Bool.or_eq_false_iff] at h
      obtain ⟨ys, e, h1, h2⟩ := ih h.2
      cases r with
      | none =>
        refine ⟨ys, e, ?_, fun y hy => ?_⟩
        · show streamLoop (LineItem.payload none d :: rest) t = _
          rw [streamLoop, h.1]
          simpa using h1
        · simpa [payloadTexts] using h2 y hy
      | some s =>
        refine ⟨s :: ys, e, ?_, fun y hy => ?_⟩
        · show streamLoop (LineItem.payload (some s) d :: rest) t = _
          rw [streamLoop, h.1]
          simpa using h1
        · rcases List.mem_cons.mp hy with rfl | hy'
          · simp [payloadTexts]
          · have := h2 y hy'
            simp only [payloadTexts, List.filterMap_cons] at *
            exact List.mem_cons_of_mem _ this

/-- C6: whenever the streaming generation fails at any reached point
(connection failure, decode failure, or a mid-stream iterator failure
before completion), the chunk sequence produced by `generate_stream`
ends with exactly one final synthetic error-text chunk describing the
failure, and every chunk before it is a legitimate payload fragment.
The generator never raises to its consumer: `generate_stream` is a
total function into the list of yielded chunks, all failure paths of the
source being caught by its `except` clause. -/
theorem C6_stream_failure_in_band (b : BackendBehavior)
    (h : hasFailure b = true) :
    ∃ ys e, generate_stream b = ys ++ [errChunk e] ∧
      ∀ y ∈ ys, y ∈ payloadTexts b.lines := by
  unfold generate_stream
  unfold hasFailure at h
  cases hcf : b.connectFailure with
  | some e => exact ⟨[], e, rfl, by simp⟩
  | none =>
    rw [hcf] at h
    simp only [Option.isSome_none, Bool.false_or, Bool.not_eq_true'] at h
    exact streamLoop_fail _ _ h

/-- C6 witness: a concrete stream that yields one payload and then a
line whose decode fails. -/
theorem C6_stream_failure_witness :
    hasFailure midFailStream = true ∧
    ∃ ys e, generate_stream midFailStream = ys ++ [errChunk e] ∧
      ∀ y ∈ ys, y ∈ payloadTexts midFailStream.lines :=
  ⟨by decide, C6_stream_failure_in_band midFailStream (by decide)⟩

theorem mem_flushPending {b : Block} {s : List Block} {a : List Str}
    (h : b ∈ flushPending s a) : b ∈ s ∨ b = Block.list a := by
  unfold flushPending at h
  split at h
  · exact .inl h
  · rcases List.mem_append.mp h with h' | h'
    · exact .inl h'
    · exact .inr (by simpa using h')

theorem noTrailWS_strip (l : Str) : noTrailWS (strip l) :=
  fun c hc => strip_getLast? l c hc

theorem noTrailWS_strip_drop (l : Str) (n : Nat) : noTrailWS ((strip l).drop n) :=
  fun c hc => strip_getLast? l c (getLast?_drop_imp n _ c hc)

theorem mem_parseStep_sections {s : List Block} {a : List Str} {l : Str} {b : Block}
    (h : b ∈ (parseStep s a l).1) :
    b ∈ s ∨ b = Block.list a
      ∨ b = Block.heading 1 ((strip l).drop 2)
      ∨ b = Block.heading 2 ((strip l).drop 3)
      ∨ b = Block.heading 3 ((strip l).drop 4)
      ∨ b = Block.paragraph (strip l) := by
  simp only [parseStep] at h
  split at h
  · rcases mem_flushPending h with h' | h'
    · exact .inl h'
    · exact .inr (.inl h')
  · split at h
    · rcases List.mem_append.mp h with h' | h'
      · rcases mem_flushPending h' with h'' | h''
        · exact .inl h''
        · exact .inr (.inl h'')
      · exact .inr (.inr (.inl (by simpa using h')))
    · split at h
      · rcases List.mem_append.mp h with h' | h'
        · rcases mem_flushPending h' with h'' | h''
          · exact .inl h''
          · exact .inr (.inl h'')
        · exact .inr (.inr (.inr (.inl (by simpa using h'))))
      · split at h
        · rcases List.mem_append.mp h with h' | h'
          · rcases mem_flushPending h' with h'' | h''
            · exact .inl h''
            · exact .inr (.inl h'')
          · exact .inr (.inr (.inr (.inr (.inl (by simpa using h')))))
        · split at h
          · exact .inl h
          · split at h
            · exact .inl h
            · rcases List.mem_append.mp h with h' | h'
              · rcases mem_flushPending h' with h'' | h''
                · exact .inl h''
                · exact .inr (.inl h'')
              · exact .inr (.inr (.inr (.inr (.inr (by simpa using h')))))

theorem parseStep_clean {s : List Block} {a : List Str} (l : Str)
    (hs : ∀ x ∈ s, blockTextClean x) :
    ∀ x ∈ (parseStep s a l).1, blockTextClean x := by
  intro x hx
  rcases mem_parseStep_sections hx with h | h | h | h | h | h
  · exact hs x h
  · subst h
    exact ⟨fun lvl t ht => Block.noConfusion ht, fun t ht => Block.noConfusion ht⟩
  · subst h
    refine ⟨fun lvl t ht => ?_, fun t ht => Block.noConfusion ht⟩
    injection ht with h1 h2
    subst h2
    exact noTrailWS_strip_drop l 2
  · subst h
    refine ⟨fun lvl t ht => ?_, fun t ht => Block.noConfusion ht⟩
    injection ht with h1 h2
    subst h2
    exact noTrailWS_strip_drop l 3
  · subst h
    refine ⟨fun lvl t ht => ?_, fun t ht => Block.noConfusion ht⟩
    injection ht with h1 h2
    subst h2
    exact noTrailWS_strip_drop l 4
  · subst h
    refine ⟨fun lvl t ht => Block.noConfusion ht, fun t ht => ?_⟩
    injection ht with h1
    subst h1
    exact noTrailWS_strip l

theorem foldl_parse_clean :
    ∀ (lines : List Str) (p : List Block × List Str),
      (∀ x ∈ p.1, blockTextClean x) →
      ∀ x ∈ (lines.foldl (fun q l => parseStep q.1 q.2 l) p).1, blockTextClean x := by
  intro lines
  induction lines with
  | nil => intro p hp; exact hp
  | cons l ls ih =>
    intro p hp
    rw [List.foldl_cons]
    exact ih _ (parseStep_clean l hp)

theorem parseGeneratedContent_clean {content : Str} :
    ∀ x ∈ parseGeneratedContent content, blockTextClean x := by
  intro x hx
  unfold parseGeneratedContent at hx
  rcases mem_flushPending hx with h | h
  · exact foldl_parse_clean (splitLines content) ([], []) (by simp) x h
  · subst h
    exact ⟨fun lvl t ht => Block.noConfusion ht, fun t ht => Block.noConfusion ht⟩

/-- C9: `parse_generated_content` strips each line of leading and
trailing whitespace before classifying it — a line classifies exactly
as its stripped form does, an all-whitespace indent prefix never changes
the classification (so indented heading/bullet/ordinal markers are
recognised), a whitespace-only line behaves exactly like a blank line,
and no emitted paragraph or heading text ends in whitespace. -/
theorem C9_parser_strips_lines :
    (∀ (s : List Block) (a : List Str) (l : Str),
      parseStep s a l = parseStep s a (strip l)) ∧
    (∀ (s : List Block) (a : List Str) (pre l : Str),
      (∀ c ∈ pre, isWS c = true) → parseStep s a (pre ++ l) = parseStep s a l) ∧
    (∀ (s : List Block) (a : List Str) (l : Str),
      (∀ c ∈ l, isWS c = true) → parseStep s a l = parseStep s a []) ∧
    (∀ (content : Str) (lvl : Nat) (t : Str),
      Block.heading lvl t ∈ parseGeneratedContent content → noTrailWS t) ∧
    (∀ (content t : Str),
      Block.paragraph t ∈ parseGeneratedContent content → noTrailWS t) := by
  refine ⟨?_, ?_, ?_, ?_, ?_⟩
  · intro s a l
    simp only [parseStep, strip_idem]
  · intro s a pre l hws
    simp only [parseStep, strip_append_ws pre l hws]
  · intro s a l hws
    simp only [parseStep, strip_eq_nil_of_ws l hws]
    rfl
  · intro content lvl t h
    exact (parseGeneratedContent_clean _ h).1 lvl t rfl
  · intro content t h
    exact (parseGeneratedContent_clean _ h).2 t rfl

/-- C9 witness: concrete instances of the stripping behaviour — an
indented heading line classifies as the unindented one, a
whitespace-only line acts as a blank line, and concrete emitted heading
and paragraph texts carry no trailing whitespace. -/
theorem C9_parser_strips_lines_witness :
    parseStep [] [] "  # Indented".data = parseStep [] [] (strip "  # Indented".data) ∧
    parseStep [] [] ("  ".data ++ "# T".data) = parseStep [] [] "# T".data ∧
    parseStep [] [] " \t ".data = parseStep [] [] [] ∧
    noTrailWS "Title".data ∧
    noTrailWS "Body".data :=
  ⟨C9_parser_strips_lines.1 [] [] "  # Indented".data,
   C9_parser_strips_lines.2.1 [] [] "  ".data "# T".data (by decide),
   C9_parser_strips_lines.2.2.1 [] [] " \t ".data (by decide),
   C9_parser_strips_lines.2.2.2.1 "# Title".data 1 "Title".data (by decide),
   C9_parser_strips_lines.2.2.2.2 "Body".data "Body".data (by decide)⟩

theorem no_templates_section : templatesSectionOf [] = [] := rfl

theorem no_ctx_section : ctxSectionOf [] = [] := rfl

theorem emptyPrompt_shape (tender : Str) :
    (create_quote_generation_prompt tender [] []).2
      = "APPEL D'OFFRE À ANALYSER:\n".data
        ++ '\n' :: (tender ++ '\n' :: ("\n\n\n".data ++ quoteGenClosing)) := by
  show quoteGenHeader ++ tender ++ "\n\n".data ++ templatesSectionOf []
      ++ "\n\n".data ++ ctxSectionOf [] ++ quoteGenClosing = _
  rw [no_templates_section, no_ctx_section]
  have hqh : quoteGenHeader = "APPEL D'OFFRE À ANALYSER:\n".data ++ ['\n'] := by decide
  rw [hqh]
  simp only [List.append_nil, List.append_assoc, List.singleton_append]
  rfl

theorem containsSub_empty_prompt (m : Str) (hm : m ≠ []) (hnl : '\n' ∉ m)
    (h0 : containsSub m "APPEL D'OFFRE À ANALYSER:\n".data = false)
    (h1 : containsSub m ("\n\n\n".data ++ quoteGenClosing) = false)
    (tender : Str) (ht : containsSub m tender = false) :
    containsSub m (create_quote_generation_prompt tender [] []).2 = false := by
  rw [emptyPrompt_shape, containsSub_append_cons m hm hnl,
    containsSub_append_cons m hm hnl, h0, ht, h1]
  rfl

/-- C5 counterexample: the claim quantifies over every tender text, but
the tender text is embedded verbatim in the user prompt, so a tender
that itself contains the marker string defeats it. -/
theorem C5_counterexample :
    containsSub "MODÈLES".data
      (create_quote_generation_prompt "MODÈLES".data [] []).2 = true := by decide

/-- C5 (amended): for every tender text that does not itself contain
the marker strings, building the generation prompt with an empty
template list and empty additional context yields a user prompt with no
"MODÈLES" marker and no "CONTEXTE SUPPLÉMENTAIRE" marker — the template
and context sections are omitted entirely rather than emitted as empty
headers. -/
theorem C5_empty_sections_omitted (tender : Str)
    (h1 : containsSub "MODÈLES".data tender = false)
    (h2 : containsSub "CONTEXTE SUPPLÉMENTAIRE".data tender = false) :
    containsSub "MODÈLES".data
        (create_quote_generation_prompt tender [] []).2 = false ∧
    containsSub "CONTEXTE SUPPLÉMENTAIRE".data
        (create_quote_generation_prompt tender [] []).2 = false :=
  ⟨containsSub_empty_prompt _ (by decide) (by decide) (by decide) (by decide) tender h1,
   containsSub_empty_prompt _ (by decide) (by decide) (by decide) (by decide) tender h2⟩

/-- C5 witness: a concrete benign tender text. -/
theorem C5_empty_sections_omitted_witness :
    containsSub "MODÈLES".data
        (create_quote_generation_prompt "Appel texte".data [] []).2 = false ∧
    containsSub "CONTEXTE SUPPLÉMENTAIRE".data
        (create_quote_generation_prompt "Appel texte".data [] []).2 = false :=
  C5_empty_sections_omitted "Appel texte".data (by decide) (by decide)

theorem fsWrite_fresh (fs : FS) (p : Nat) (b : Bytes)
    (h : ∀ f ∈ fs, f.1 < p) : fsWrite fs p b = fs ++ [(p, b)] := by
  unfold fsWrite
  congr 1
  refine List.filter_eq_self.mpr fun f hf => ?_
  simpa using Nat.ne_of_lt (h f hf)

theorem fsWrite_remove_fresh (fs : FS) (p : Nat) (b : Bytes)
    (h : ∀ f ∈ fs, f.1 < p) : fsRemove (fsWrite fs p b) p = fs := by
  rw [fsWrite_fresh fs p b h]
  unfold fsRemove
  rw [List.filter_append]
  have h1 : fs.filter (fun f => f.1 != p) = fs :=
    List.filter_eq_self.mpr fun f hf => by simpa using Nat.ne_of_lt (h f hf)
  rw [h1]
  simp

theorem upload_dedup (st : SysState) {b : Bytes} {d : Doc}
    (hfind : st.db.documents.find? (fun x => x.file_hash == b) = some d)
    (env : Env) (n : Str) (ty : DocumentType) (r t de : Option Str) (tem : Bool) :
    upload_document env st b n ty r t de tem
      = ({ st with
            fs := fsRemove (fsWrite st.fs st.pathCtr b) st.pathCtr
            pathCtr := st.pathCtr + 1 }, d) := by
  unfold upload_document
  simp only [hfind]

/-- C8: when `upload_document` finds an existing document with the same
content digest, it returns that existing record itself — hence with
every one of its fields (`document_type`, `is_template`, `reference`,
`title`, `description`, …) unchanged — and the arguments of the new
call neither modify the stored record nor the database or the file
store (the freshly written duplicate file is removed again). -/
theorem C8_dedup_returns_existing (env : Env) (st : SysState) (b : Bytes) (d : Doc)
    (hfresh : ∀ f ∈ st.fs, f.1 < st.pathCtr)
    (hfind : st.db.documents.find? (fun x => x.file_hash == b) = some d)
    (n : Str) (ty : DocumentType) (r t de : Option Str) (tem : Bool) :
    (upload_document env st b n ty r t de tem).2 = d ∧
    ((upload_document env st b n ty r t de tem).1).db = st.db ∧
    ((upload_document env st b n ty r t de tem).1).fs = st.fs := by
  rw [upload_dedup st hfind env n ty r t de tem]
  exact ⟨rfl, rfl, fsWrite_remove_fresh st.fs st.pathCtr b hfresh⟩

/-- C8 witness: re-uploading the tender's bytes with entirely different
metadata arguments returns the stored record and leaves the store
untouched. -/
theorem C8_dedup_returns_existing_witness :
    (upload_document envOk stTender [7] "autre.docx".data DocumentType.OFFRE_PRIX
        (some "REF-9".data) (some "Nouveau titre".data) (some "desc".data) true).2
      = tenderDoc ∧
    ((upload_document envOk stTender [7] "autre.docx".data DocumentType.OFFRE_PRIX
        (some "REF-9".data) (some "Nouveau titre".data) (some "desc".data) true).1).db
      = stTender.db ∧
    ((upload_document envOk stTender [7] "autre.docx".data DocumentType.OFFRE_PRIX
        (some "REF-9".data) (some "Nouveau titre".data) (some "desc".data) true).1).fs
      = stTender.fs :=
  C8_dedup_returns_existing envOk stTender [7] tenderDoc (by decide) (by decide)
    "autre.docx".data DocumentType.OFFRE_PRIX
    (some "REF-9".data) (some "Nouveau titre".data) (some "desc".data) true

theorem filterMap_head_of_find? :
    ∀ (ls : List Str) (rawl : Str),
      ls.find? (fun l => !(strip l).isEmpty) = some rawl →
      ∃ rest, ls.filterMap (fun l => if (strip l).isEmpty then none else some (strip l))
        = strip rawl :: rest := by
  intro ls
  induction ls with
  | nil => intro rawl h; simp at h
  | cons x xs ih =>
    intro rawl h
    by_cases hx : (strip x).isEmpty
    · rw [List.find?_cons_of_neg _ (by simp [hx])] at h
      obtain ⟨rest, hr⟩ := ih rawl h
      exact ⟨rest, by rw [List.filterMap_cons_none (by simp [hx]), hr]⟩
    · rw [List.find?_cons_of_pos _ (by simp [hx])] at h
      obtain rfl : x = rawl := by simpa using h
      refine ⟨List.filterMap
        (fun l => if (strip l).isEmpty then none else some (strip l)) xs, ?_⟩
      have hx' : strip x ≠ [] := by simpa [List.isEmpty_iff] using hx
      simp [List.filterMap_cons, hx, hx']

theorem keyTitle_of_first (text rawl : Str)
    (h : firstNonBlankRawLine text = some rawl) :
    keyTitle text = some ((strip rawl).take 200) := by
  unfold firstNonBlankRawLine at h
  obtain ⟨rest, hr⟩ := filterMap_head_of_find? (splitLines text) rawl h
  unfold keyTitle
  simp only [hr]

theorem strip_of_first_nonblank (text rawl : Str)
    (h : firstNonBlankRawLine text = some rawl) : strip rawl ≠ [] := by
  unfold firstNonBlankRawLine at h
  have hp := List.find?_some h
  simp only [Bool.not_eq_true'] at hp
  intro hnil
  rw [hnil] at hp
  simp at hp

/-- C10 (amended): when `upload_document` ingests new content as a
tender (`APPEL_OFFRE`) with no (falsy) reference argument, and the
extracted text has a non-blank line, the stored title is that first
non-blank line stripped of its surrounding whitespace and truncated to
200 characters, taking precedence over the caller-supplied title
argument. -/
theorem C10_tender_title_override (env : Env) (st : SysState) (b : Bytes)
    (hfind : st.db.documents.find? (fun x => x.file_hash == b) = none)
    (n : Str) (r t de : Option Str) (tem : Bool)
    (hr : truthyO r = false)
    (rawl : Str)
    (hline : firstNonBlankRawLine (env.extractor b) = some rawl) :
    (upload_document env st b n DocumentType.APPEL_OFFRE r t de tem).2.title
      = (strip rawl).take 200 := by
  have httl := keyTitle_of_first _ _ hline
  have hne : strip rawl ≠ [] := strip_of_first_nonblank _ _ hline
  have htr : ((strip rawl).take 200).isEmpty = false := by
    cases hs : strip rawl with
    | nil => exact absurd hs hne
    | cons c cs => simp [hs]
  unfold upload_document
  simp only [hfind]
  rw [if_pos ⟨trivial, by rw [hr]; simp⟩]
  simp only [extract_key_information, httl]
  show pyOr (pyOrO (some ((strip rawl).take 200)) t) n = (strip rawl).take 200
  unfold pyOrO truthyO
  rw [if_pos (by simp [htr])]
  unfold pyOr truthyO
  rw [if_pos (by simp [htr])]
  rfl

/-- C10 counterexample: with extracted text `" T \nx"`, the first
non-blank line is `" T "`, but the stored title is the stripped `"T"`,
not the claim's `" T "` truncated to 200 characters. -/
theorem C10_counterexample :
    firstNonBlankRawLine (envPadTitle.extractor [5]) = some " T ".data ∧
    (upload_document envPadTitle stEmpty [5] "f.pdf".data DocumentType.APPEL_OFFRE
        none (some "Arg".data) none false).2.title = "T".data ∧
    "T".data ≠ (" T ".data : Str).take 200 := by decide

/-- C10 witness: the amended theorem at the concrete padded-title
environment. -/
theorem C10_tender_title_override_witness :
    (upload_document envPadTitle stEmpty [5] "f.pdf".data DocumentType.APPEL_OFFRE
        none (some "Caller".data) none false).2.title
      = (strip " T ".data).take 200 :=
  C10_tender_title_override envPadTitle stEmpty [5] (by decide)
    "f.pdf".data none (some "Caller".data) none false (by decide)
    " T ".data (by decide)

theorem ollama_generate_ok_not_fail (u : Str) (o : HttpOutcome) (t : Str)
    (h : ollama_generate u o = .ok t) : o.isFailure = false := by
  cases o with
  | timeout => exact absurd h (by simp [ollama_generate])
  | connError => exact absurd h (by simp [ollama_generate])
  | response status f body =>
    by_cases hs : (status == 200) = true
    · show (status != 200) = false
      simp [bne, hs]
    · exact absurd h (by simp [ollama_generate, hs])

theorem ollama_generate_error_isFail (u : Str) (o : HttpOutcome) (e : Str)
    (h : ollama_generate u o = .error e) : o.isFailure = true := by
  cases o with
  | timeout => rfl
  | connError => rfl
  | response status f body =>
    by_cases hs : (status == 200) = true
    · exact absurd h (by simp [ollama_generate, hs])
    · show (status != 200) = true
      simp [bne, Bool.eq_false_iff.mpr hs]

/-- C4 (amended): a missing *source* document id makes every
generation/analysis entry point fail with the `ValueError`-style
NotFound error before any model call — the result is a fixed value,
independent of the model-backend environment, with the state unchanged.
A missing *template* id, by contrast, is silently skipped: with an
existing tender and a healthy backend, `generate_quote` succeeds no
matter which template ids are supplied. -/
theorem C4_not_found_before_model_call :
    (∀ (env : Env) (st : SysState) (tid : Nat) (tids : Option (List Nat))
        (ctx : Str) (ofn : Option Str), get_document st tid = none →
      generate_quote env st tid tids ctx ofn = (.error (.notFound tid), st)) ∧
    (∀ (env : Env) (st : SysState) (tid : Nat) (tids : Option (List Nat))
        (ctx : Str), get_document st tid = none →
      generate_quote_stream env st tid tids ctx = (.error (.notFound tid), st)) ∧
    (∀ (env : Env) (st : SysState) (did : Nat), get_document st did = none →
      analyze_tender env st did = .error (.notFound did)) ∧
    (∀ (env : Env) (st : SysState) (did : Nat), get_document st did = none →
      analyze_tender_stream env st did = .error (.notFound did)) ∧
    (∀ (env : Env) (st : SysState) (tid : Nat) (d : Doc)
        (tids : Option (List Nat)) (ctx : Str) (ofn : Option Str),
      get_document st tid = some d →
      (∀ p s, (env.http p s).isFailure = false) →
      ((generate_quote env st tid tids ctx ofn).1).isOk = true) := by
  refine ⟨?_, ?_, ?_, ?_, ?_⟩
  · intro env st tid tids ctx ofn h
    unfold generate_quote
    rw [h]
  · intro env st tid tids ctx h
    unfold generate_quote_stream
    rw [h]
  · intro env st did h
    unfold analyze_tender
    rw [h]
  · intro env st did h
    unfold analyze_tender_stream
    rw [h]
  · intro env st tid d tids ctx ofn hd hb
    unfold generate_quote
    simp only [hd]
    split
    next e heq =>
      have hf := ollama_generate_error_isFail _ _ _ heq
      rw [hb _ _] at hf
      exact Bool.noConfusion hf
    next g heq => rfl

/-- C4 counterexample: template id 99 does not exist in the store, yet
the generation call succeeds (the model is called and the pipeline
completes) instead of failing with a NotFound-style error. -/
theorem C4_counterexample :
    get_document stTender 99 = none ∧
    ((generate_quote envOk stTender 1 (some [99]) [] none).1).isOk = true := by
  decide

/-- C4 witness: the missing-source branch at a concrete empty store,
and the missing-template tolerance at the concrete tender store. -/
theorem C4_not_found_witness :
    generate_quote envOk stEmpty 1 none [] none
      = (.error (.notFound 1), stEmpty) ∧
    analyze_tender envOk stEmpty 1 = .error (.notFound 1) ∧
    ((generate_quote envOk stTender 1 (some [99]) [] none).1).isOk = true :=
  ⟨C4_not_found_before_model_call.1 envOk stEmpty 1 none [] none (by decide),
   C4_not_found_before_model_call.2.2.1 envOk stEmpty 1 (by decide),
   C4_not_found_before_model_call.2.2.2.2 envOk stTender 1 tenderDoc
     (some [99]) [] none (by decide) (fun _ _ => rfl)⟩

theorem upload_history_frame (env : Env) (st : SysState) (b : Bytes) (n : Str)
    (ty : DocumentType) (r t de : Option Str) (tem : Bool) :
    ((upload_document env st b n ty r t de tem).1).db.history = st.db.history := by
  simp only [upload_document]
  cases hf : List.find? (fun d => d.file_hash == b) st.db.documents with
  | some existing => simp only [hf]
  | none => simp only [hf]

theorem commitGeneration_fst_history (env : Env) (st : SysState) (tender : Doc)
    (tid : Nat) (tids : Option (List Nat)) (up gc ofn : Str) :
    ((commitGeneration env st tender tid tids up gc ofn).1).db.history
      = st.db.history
        ++ [(commitGeneration env st tender tid tids up gc ofn).2.2] := by
  unfold commitGeneration
  simp only [upload_history_frame]

theorem commitGeneration_snd_source (env : Env) (st : SysState) (tender : Doc)
    (tid : Nat) (tids : Option (List Nat)) (up gc ofn : Str) :
    ((commitGeneration env st tender tid tids up gc ofn).2.2).source_document_id
      = tid := by
  unfold commitGeneration
  simp only []

/-- C1 (amended): for the blocking `generate_quote`, a failing model
backend (connection failure, timeout, or non-success status) makes the
call raise with the state unchanged — no `GenerationHistory` record and
no generated `Document` are left.  For `generate_quote_stream`, however,
a streaming-backend failure arrives as an in-band error chunk, after
which the pipeline still commits: it appends exactly one
`GenerationHistory` record (whose source is the tender) and completes
normally, embedding the error text in the generated artifact. -/
theorem C1_failure_audit_trail :
    (∀ (env : Env) (st : SysState) (tid : Nat) (tids : Option (List Nat))
        (ctx : Str) (ofn : Option Str),
      (∀ p s, (env.http p s).isFailure = true) →
      (generate_quote env st tid tids ctx ofn).2 = st ∧
      ∃ e, (generate_quote env st tid tids ctx ofn).1 = .error e) ∧
    (∀ (env : Env) (st : SysState) (tid : Nat) (d : Doc)
        (tids : Option (List Nat)) (ctx : Str),
      get_document st tid = some d →
      (∀ p s, hasFailure (env.streamOf p s) = true) →
      ((generate_quote_stream env st tid tids ctx).2).db.history.length
        = st.db.history.length + 1 ∧
      (((generate_quote_stream env st tid tids ctx).2).db.history.getLast?).map
          (fun h => h.source_document_id) = some tid ∧
      ∃ ys, (generate_quote_stream env st tid tids ctx).1 = .ok ys) := by
  constructor
  · intro env st tid tids ctx ofn hb
    unfold generate_quote
    cases hgd : get_document st tid with
    | none => exact ⟨rfl, GenFailure.notFound tid, rfl⟩
    | some tender =>
      simp only [hgd]
      split
      next e heq => exact ⟨rfl, GenFailure.backend e, rfl⟩
      next g heq =>
        have hf := ollama_generate_ok_not_fail _ _ _ heq
        rw [hb _ _] at hf
        exact Bool.noConfusion hf
  · intro env st tid d tids ctx hd hsf
    unfold generate_quote_stream
    simp only [hd]
    refine ⟨?_, ?_, ?_⟩
    · rw [commitGeneration_fst_history]
      simp
    · rw [commitGeneration_fst_history, List.getLast?_concat]
      simp only [Option.map_some']
      rw [commitGeneration_snd_source]
    · exact ⟨_, rfl⟩

/-- C1 counterexample: with a tender in the store, an empty history and
a streaming backend that fails at connection time, consuming
`generate_quote_stream` still appends a `GenerationHistory` record and
still stores a generated `Document` — the audit trail is not unchanged
on failure. -/
theorem C1_counterexample :
    stTender.db.history = [] ∧
    hasFailure (envFail.streamOf [] []) = true ∧
    ((generate_quote_stream envFail stTender 1 none []).2).db.history.length = 1 ∧
    ((generate_quote_stream envFail stTender 1 none []).2).db.documents.length = 2 := by
  decide

/-- C1 witness: both halves of the amended claim at the concrete
failing environment. -/
theorem C1_failure_audit_trail_witness :
    ((generate_quote envFail stTender 1 none [] none).2 = stTender ∧
      ∃ e, (generate_quote envFail stTender 1 none [] none).1 = .error e) ∧
    (((generate_quote_stream envFail stTender 1 none []).2).db.history.length
        = stTender.db.history.length + 1 ∧
      (((generate_quote_stream envFail stTender 1 none []).2).db.history.getLast?).map
          (fun h => h.source_document_id) = some 1 ∧
      ∃ ys, (generate_quote_stream envFail stTender 1 none []).1 = .ok ys) :=
  ⟨C1_failure_audit_trail.1 envFail stTender 1 none [] none (fun _ _ => rfl),
   C1_failure_audit_trail.2 envFail stTender 1 tenderDoc none [] (by decide)
     (fun _ _ => rfl)⟩

theorem countContent_append (fs1 fs2 : FS) (b : Bytes) :
    countContent (fs1 ++ fs2) b = countContent fs1 b + countContent fs2 b := by
  unfold countContent
  rw [List.filter_append, List.length_append]

theorem countContent_zero_of {fs : FS} {b : Bytes}
    (h : ∀ f ∈ fs, f.2 ≠ b) : countContent fs b = 0 := by
  unfold countContent
  rw [List.length_eq_zero]
  exact List.filter_eq_nil_iff.mpr fun f hf => by simpa using h f hf

theorem countContent_one_of_found {st : SysState} {b : Bytes} {d : Doc}
    (hA : ∀ dd ∈ st.db.documents, (dd.file_path, dd.file_hash) ∈ st.fs)
    (hB : ∀ f ∈ st.fs, ∃ dd ∈ st.db.documents, dd.file_path = f.1 ∧ dd.file_hash = f.2)
    (hPW : st.db.documents.Pairwise (fun a b => a.file_hash ≠ b.file_hash))
    (hND : (st.fs.map Prod.fst).Nodup)
    (hf : st.db.documents.find? (fun x => x.file_hash == b) = some d) :
    countContent st.fs b = 1 := by
  have hd_mem : d ∈ st.db.documents := List.mem_of_find?_eq_some hf
  have hd_hash : d.file_hash = b := by simpa using List.find?_some hf
  have hx : (d.file_path, b) ∈ st.fs := by rw [← hd_hash]; exact hA d hd_mem
  unfold countContent
  apply nodup_all_eq_length_one (x := (d.file_path, b))
  · exact List.Nodup.of_map Prod.fst
      (hND.sublist ((List.filter_sublist _).map Prod.fst))
  · exact List.mem_filter.mpr ⟨hx, by simp⟩
  · intro y hy
    obtain ⟨hy_mem, hy_b⟩ := List.mem_filter.mp hy
    have hyb : y.2 = b := by simpa using hy_b
    obtain ⟨dd, hdd_mem, hdd_path, hdd_hash⟩ := hB y hy_mem
    have hdd : dd = d :=
      pairwise_hash_unique hPW hdd_mem hd_mem (by rw [hdd_hash, hyb, hd_hash])
    subst hdd
    cases y with
    | mk y1 y2 =>
      simp only at hdd_path hyb
      rw [← hdd_path, hyb]

theorem upload_fresh {st : SysState} {b : Bytes}
    (hfind : st.db.documents.find? (fun x => x.file_hash == b) = none)
    (env : Env) (n : Str) (ty : DocumentType) (r t de : Option Str) (tem : Bool) :
    ∃ D : Doc, upload_document env st b n ty r t de tem
        = ({ st with
              fs := fsWrite st.fs st.pathCtr b
              db := { st.db with
                      documents := st.db.documents ++ [D]
                      nextDocId := st.db.nextDocId + 1 }
              pathCtr := st.pathCtr + 1 }, D)
      ∧ D.file_hash = b ∧ D.file_path = st.pathCtr ∧ D.id = st.db.nextDocId := by
  simp only [upload_document, hfind]
  exact ⟨_, rfl, rfl, rfl, rfl⟩

/-- C2: `upload_document` is idempotent with respect to file bytes —
for every well-formed store and byte content, two consecutive uploads
of the same bytes (with arbitrary, possibly different, filenames and
metadata arguments, under arbitrary collaborator environments) return a
`Document` with the same identifier both times, and after the second
call exactly one backing file with that content exists in the store
(the second temporary file having been removed). -/
theorem C2_upload_idempotent (env1 env2 : Env) (st : SysState)
    (hWF : goodState st) (b : Bytes) (n1 n2 : Str) (ty1 ty2 : DocumentType)
    (r1 r2 t1 t2 de1 de2 : Option Str) (tem1 tem2 : Bool) :
    ((upload_document env2 (upload_document env1 st b n1 ty1 r1 t1 de1 tem1).1
        b n2 ty2 r2 t2 de2 tem2).2).id
      = ((upload_document env1 st b n1 ty1 r1 t1 de1 tem1).2).id ∧
    countContent
      ((upload_document env2 (upload_document env1 st b n1 ty1 r1 t1 de1 tem1).1
        b n2 ty2 r2 t2 de2 tem2).1).fs b = 1 := by
  obtain ⟨hA, hB, hPW, hFresh, hND⟩ := hWF
  have hFresh1 : ∀ f ∈ st.fs, f.1 < st.pathCtr + 1 :=
    fun f hf' => Nat.lt_succ_of_lt (hFresh f hf')
  cases hf : st.db.documents.find? (fun x => x.file_hash == b) with
  | some d =>
    have hfs1 : fsRemove (fsWrite st.fs st.pathCtr b) st.pathCtr = st.fs :=
      fsWrite_remove_fresh st.fs st.pathCtr b hFresh
    rw [upload_dedup st hf env1 n1 ty1 r1 t1 de1 tem1, hfs1]
    rw [upload_dedup
      { fs := st.fs, db := st.db, pathCtr := st.pathCtr + 1 }
      hf env2 n2 ty2 r2 t2 de2 tem2]
    refine ⟨rfl, ?_⟩
    show countContent
      (fsRemove (fsWrite st.fs (st.pathCtr + 1) b) (st.pathCtr + 1)) b = 1
    rw [fsWrite_remove_fresh st.fs (st.pathCtr + 1) b hFresh1]
    exact countContent_one_of_found hA hB hPW hND hf
  | none =>
    obtain ⟨D, hu, hDhash, hDpath, hDid⟩ :=
      upload_fresh hf env1 n1 ty1 r1 t1 de1 tem1
    rw [hu]
    have hf2 : (st.db.documents ++ [D]).find? (fun x => x.file_hash == b)
        = some D := by
      rw [find?_append_none _ _ _ hf]
      simp [List.find?_cons, hDhash]
    rw [upload_dedup
      { fs := fsWrite st.fs st.pathCtr b
        db := { documents := st.db.documents ++ [D]
                history := st.db.history
                nextDocId := st.db.nextDocId + 1
                nextHistId := st.db.nextHistId }
        pathCtr := st.pathCtr + 1 }
      hf2 env2 n2 ty2 r2 t2 de2 tem2]
    refine ⟨rfl, ?_⟩
    have hw1 : fsWrite st.fs st.pathCtr b = st.fs ++ [(st.pathCtr, b)] :=
      fsWrite_fresh st.fs st.pathCtr b hFresh
    have hFresh2 : ∀ f ∈ st.fs ++ [(st.pathCtr, b)], f.1 < st.pathCtr + 1 := by
      intro f hf'
      rcases List.mem_append.mp hf' with h' | h'
      · exact hFresh1 f h'
      · simp at h'
        rw [h']
        exact Nat.lt_succ_self _
    show countContent
      (fsRemove (fsWrite (fsWrite st.fs st.pathCtr b) (st.pathCtr + 1) b)
        (st.pathCtr + 1)) b = 1
    rw [hw1, fsWrite_remove_fresh _ (st.pathCtr + 1) b hFresh2,
      countContent_append]
    have hz : countContent st.fs b = 0 := by
      apply countContent_zero_of
      intro f hf' hfb
      obtain ⟨dd, hdd_mem, _, hdd_hash⟩ := hB f hf'
      have := List.find?_eq_none.mp hf dd hdd_mem
      rw [hdd_hash, hfb] at this
      simp at this
    rw [hz]
    unfold countContent
    simp

/-- C2 witness: two consecutive uploads of the bytes `[9]` into the
empty store, with different filenames and metadata. -/
theorem C2_upload_idempotent_witness :
    ((upload_document envOk (upload_document envOk stEmpty [9] "a.pdf".data
        DocumentType.APPEL_OFFRE none none none false).1
        [9] "b.docx".data DocumentType.OFFRE_PRIX (some "R".data) (some "T".data)
        (some "D".data) true).2).id
      = ((upload_document envOk stEmpty [9] "a.pdf".data
        DocumentType.APPEL_OFFRE none none none false).2).id ∧
    countContent
      ((upload_document envOk (upload_document envOk stEmpty [9] "a.pdf".data
        DocumentType.APPEL_OFFRE none none none false).1
        [9] "b.docx".data DocumentType.OFFRE_PRIX (some "R".data) (some "T".data)
        (some "D".data) true).1).fs [9] = 1 :=
  C2_upload_idempotent envOk envOk stEmpty (by decide) [9] "a.pdf".data
    "b.docx".data DocumentType.APPEL_OFFRE DocumentType.OFFRE_PRIX
    none (some "R".data) none (some "T".data) none (some "D".data) false true
